import Mathlib

/-!
Verification of the cyclone track-and-field core (pycaz/cyclone.py).

Shallow embedding conventions, used consistently below:

* Python floats are embedded as exact rationals.  NaN ("missing") values are
  embedded as the type (Option Rat) with none standing for NaN; multiplication
  and addition propagate none exactly as IEEE arithmetic propagates NaN on
  finite operands.
* The transcendental constants np.pi and np.exp(1) are opaque to every claim
  considered here; they are passed to the embedded definitions as explicit
  parameters (pi, e), and the theorems quantify over them (adding positivity
  where the claim needs it).  Specialising the parameter to the true value of
  the constant recovers the original program.
* np.sin and np.cos are evaluated by the source only at the five sampled
  angles 0, pi/2, pi, 3*pi/2, 2*pi (where their exact values are 0, 1, -1)
  and at opaque query angles, for which the sine/cosine values are passed as
  parameters.
* Fractional powers and square roots appearing inside a single model formula
  whose output sign is the only thing a claim observes are passed as opaque
  function parameters (powQ, sqrtQ); np.sqrt applied to a perfect rational
  square (the only use a claim evaluates) is embedded as Rat.sqrt, which
  agrees with the real square root there.
-/

/-- NaN-propagating multiplication by a (finite) weight: NaN * w = NaN. -/
def mulO (a : Option ℚ) (w : ℚ) : Option ℚ := a.map (fun x => x * w)

/-- NaN-propagating addition: if either side is NaN the sum is NaN. -/
def addO : Option ℚ → Option ℚ → Option ℚ
  | some a, some b => some (a + b)
  | _, _ => none

/-- Weighted blend a*w1 + b*w2 with NaN propagation, as used throughout
Track.interpolate. -/
def blendO (w1 w2 : ℚ) (a b : Option ℚ) : Option ℚ := addO (mulO a w1) (mulO b w2)

/-! ## Scalar physics library (pycaz/cyclone.py top-level functions) -/

/-- Embedding of calc_holland_B (cyclone.py lines 103-124): the simplified
Holland-B without the Coriolis term, followed by the clamp
if B < bmin then bmin elif B > bmax then bmax else B.
The constant np.exp(1) is the parameter e. -/
def calc_holland_B (e vmax pc pn rhoair bmax bmin : ℚ) : ℚ :=
  let B := vmax ^ 2 * rhoair * e / (pn - pc)
  if B < bmin then bmin else if B > bmax then bmax else B

/-- Embedding of calc_holland_B_full (cyclone.py lines 126-148): the full
Holland-B including the Coriolis term, with the same clamp.
The constant np.exp(1) is the parameter e. -/
def calc_holland_B_full (e vmax rmax pc f pn rhoair bmax bmin : ℚ) : ℚ :=
  let B := (vmax ^ 2 * rhoair * e + f * vmax * rmax * e * rhoair) / (pn - pc)
  if B < bmin then bmin else if B > bmax then bmax else B

/-- Embedding of calc_vcirc_e11 (cyclone.py lines 261-273): the Emanuel 2011
circular wind profile; purely rational arithmetic. -/
def calc_vcirc_e11 (r Rm Vm f : ℚ) : ℚ :=
  2 * r * (Rm * Vm + 1/2 * f * Rm ^ 2) / (Rm ^ 2 + r ^ 2) - r * f / 2

/-- Embedding of calc_vcirc_e04 (cyclone.py lines 245-259): the Emanuel 2004
circular wind profile.  The float power operator and np.sqrt are opaque
function parameters powQ and sqrtQ (the claims only observe the sign handling
around this formula, never its numeric value). -/
def calc_vcirc_e04 (powQ : ℚ → ℚ → ℚ) (sqrtQ : ℚ → ℚ) (r Rm Vm b m n R0 : ℚ) : ℚ :=
  let multiplier := (1 - b) * (n + m) / (n + m * powQ (r / Rm) (2 * (n + m)))
      + b * (1 + 2 * m) / (1 + 2 * m * powQ (r / Rm) (2 * m + 1))
  Vm * ((R0 - r) / (R0 - Rm)) * powQ (r / Rm) m * sqrtQ multiplier

/-- Embedding of the flooring applied by Record.calculate_wind after the E04
and E11 models (cyclone.py lines 803-804 and 814-815):
if vcirc <= 0 then vcirc = 0. -/
def vcirc_floor (v : ℚ) : ℚ := if v ≤ 0 then 0 else v

/-- The E04 branch of the model dispatch in Record.calculate_wind
(lines 792-804): the raw profile value followed by the zero floor. -/
def calculate_wind_e04 (powQ : ℚ → ℚ → ℚ) (sqrtQ : ℚ → ℚ) (r Rm Vm b m n R0 : ℚ) : ℚ :=
  vcirc_floor (calc_vcirc_e04 powQ sqrtQ r Rm Vm b m n R0)

/-- The E11 branch of the model dispatch in Record.calculate_wind
(lines 806-815): the raw profile value followed by the zero floor. -/
def calculate_wind_e11 (r Rm Vm f : ℚ) : ℚ :=
  vcirc_floor (calc_vcirc_e11 r Rm Vm f)

/-- C5: for every input with pn > pc (and a sane clamp range bmin <= bmax),
both Holland-B variants return a value inside [bmin, bmax], and whenever the
unclamped formula value lies outside the range the result is the nearer
bound.  The theorem quantifies over the opaque constant e = np.exp(1). -/
theorem holland_B_clamped (e vmax rmax pc f pn rhoair bmax bmin : ℚ)
    (hpn : pc < pn) (hb : bmin ≤ bmax) :
    (bmin ≤ calc_holland_B e vmax pc pn rhoair bmax bmin ∧
      calc_holland_B e vmax pc pn rhoair bmax bmin ≤ bmax) ∧
    (bmin ≤ calc_holland_B_full e vmax rmax pc f pn rhoair bmax bmin ∧
      calc_holland_B_full e vmax rmax pc f pn rhoair bmax bmin ≤ bmax) ∧
    (vmax ^ 2 * rhoair * e / (pn - pc) < bmin →
      calc_holland_B e vmax pc pn rhoair bmax bmin = bmin) ∧
    (vmax ^ 2 * rhoair * e / (pn - pc) > bmax →
      calc_holland_B e vmax pc pn rhoair bmax bmin = bmax) ∧
    ((vmax ^ 2 * rhoair * e + f * vmax * rmax * e * rhoair) / (pn - pc) < bmin →
      calc_holland_B_full e vmax rmax pc f pn rhoair bmax bmin = bmin) ∧
    ((vmax ^ 2 * rhoair * e + f * vmax * rmax * e * rhoair) / (pn - pc) > bmax →
      calc_holland_B_full e vmax rmax pc f pn rhoair bmax bmin = bmax) := by
  unfold calc_holland_B calc_holland_B_full
  refine ⟨?_, ?_, ?_, ?_, ?_, ?_⟩ <;> simp only []
  · split_ifs with h1 h2
    · exact ⟨le_refl _, hb⟩
    · exact ⟨hb, le_refl _⟩
    · exact ⟨le_of_not_lt h1, le_of_not_lt h2⟩
  · split_ifs with h1 h2
    · exact ⟨le_refl _, hb⟩
    · exact ⟨hb, le_refl _⟩
    · exact ⟨le_of_not_lt h1, le_of_not_lt h2⟩
  · intro h; rw [if_pos h]
  · intro h; rw [if_neg (not_lt.mpr (le_trans hb (le_of_lt h))), if_pos h]
  · intro h; rw [if_pos h]
  · intro h; rw [if_neg (not_lt.mpr (le_trans hb (le_of_lt h))), if_pos h]

/-- Witness for C5 at a concrete input (e stands for np.exp(1); any positive
rational placeholder exercises the clamp logic). -/
theorem holland_B_clamped_witness :
    ((100000 : ℚ) < 101325 ∧ (1/2 : ℚ) ≤ 5/2) ∧
    ((1/2 : ℚ) ≤ calc_holland_B (27183/10000) 50 100000 101325 (23/20) (5/2) (1/2) ∧
      calc_holland_B (27183/10000) 50 100000 101325 (23/20) (5/2) (1/2) ≤ 5/2) := by
  refine ⟨⟨by norm_num, by norm_num⟩, ?_⟩
  exact (holland_B_clamped (27183/10000) 50 30000 100000 (1/20000) 101325 (23/20)
    (5/2) (1/2) (by norm_num) (by norm_num)).1

/-- C9: the E04 and E11 circular-wind values used by calculate_wind are
floored at zero: for every admissible input the dispatched value is
nonnegative, and a negative raw model value is replaced by zero.  powQ and
sqrtQ are the opaque float power and square root. -/
theorem e04_e11_floored_at_zero (powQ : ℚ → ℚ → ℚ) (sqrtQ : ℚ → ℚ)
    (r Rm Vm b m n R0 f : ℚ) (hr : 0 ≤ r) (hRm : 0 < Rm) (hVm : 0 ≤ Vm) :
    (0 ≤ calculate_wind_e04 powQ sqrtQ r Rm Vm b m n R0 ∧
      0 ≤ calculate_wind_e11 r Rm Vm f) ∧
    (calc_vcirc_e04 powQ sqrtQ r Rm Vm b m n R0 < 0 →
      calculate_wind_e04 powQ sqrtQ r Rm Vm b m n R0 = 0) ∧
    (calc_vcirc_e11 r Rm Vm f < 0 → calculate_wind_e11 r Rm Vm f = 0) := by
  unfold calculate_wind_e04 calculate_wind_e11 vcirc_floor
  refine ⟨⟨?_, ?_⟩, ?_, ?_⟩
  · split_ifs with h
    · exact le_refl 0
    · exact le_of_lt (lt_of_not_le h)
  · split_ifs with h
    · exact le_refl 0
    · exact le_of_lt (lt_of_not_le h)
  · intro h; rw [if_pos (le_of_lt h)]
  · intro h; rw [if_pos (le_of_lt h)]

/-- Witness for C9 at a concrete input (default model constants as exact
rationals; placeholder power and square-root functions). -/
theorem e04_e11_floored_at_zero_witness :
    ((0 : ℚ) ≤ 60000 ∧ (0 : ℚ) < 50000 ∧ (0 : ℚ) ≤ 45) ∧
    (0 ≤ calculate_wind_e04 (fun a b => a * b) (fun a => a)
        60000 50000 45 (1/4) (8/5) (9/10) 420000 ∧
      0 ≤ calculate_wind_e11 60000 50000 45 (1/10000)) := by
  refine ⟨⟨by norm_num, by norm_num, by norm_num⟩, ?_⟩
  exact (e04_e11_floored_at_zero (fun a b => a * b) (fun a => a)
    60000 50000 45 (1/4) (8/5) (9/10) 420000 (1/10000)
    (by norm_num) (by norm_num) (by norm_num)).1

/-! ## Bearing conversion in calculate_wind / calculate_pressure -/

/-- Embedding of cyclone.py line 645 (also 894): the clockwise-from-north
conversion theta = -theta_input + pi/2 that the docstring describes.  In the
source this value is computed and then immediately overwritten. -/
def theta_converted (pi θin : ℚ) : ℚ := -θin + pi / 2

/-- Embedding of cyclone.py lines 648-651 (also 897-900), the value actually
bound to theta when the interpolators are evaluated: the raw input bearing,
wrapped by adding 2*pi when negative. -/
def theta_used (pi θin : ℚ) : ℚ := if θin < 0 then 2 * pi + θin else θin

/-- C2 (refuting): the bearing actually used is the raw counter-clockwise
input bearing (wrapped when negative), not the clockwise-from-north
conversion: the conversion computed on line 645 is dead code.  At the
concrete bearing pi/2 the two differ. -/
theorem bearing_not_converted (pi : ℚ) (hpi : 0 < pi) :
    (∀ θin : ℚ, 0 ≤ θin → theta_used pi θin = θin) ∧
    (∀ θin : ℚ, θin < 0 → theta_used pi θin = 2 * pi + θin) ∧
    theta_used pi (pi / 2) = pi / 2 ∧
    theta_converted pi (pi / 2) = 0 ∧
    theta_used pi (pi / 2) ≠ theta_converted pi (pi / 2) := by
  refine ⟨?_, ?_, ?_, ?_, ?_⟩
  · intro θin h; unfold theta_used; rw [if_neg (not_lt.mpr h)]
  · intro θin h; unfold theta_used; rw [if_pos h]
  · unfold theta_used; rw [if_neg (not_lt.mpr (by positivity))]
  · unfold theta_converted; ring
  · unfold theta_used theta_converted
    rw [if_neg (not_lt.mpr (by positivity))]
    intro h
    have : pi = 0 := by linarith
    exact absurd this (ne_of_gt hpi)

/-- Witness for C2 with a concrete positive stand-in for the opaque
constant pi. -/
theorem bearing_not_converted_witness :
    (0 : ℚ) < 3 ∧ theta_used 3 (3 / 2) ≠ theta_converted 3 (3 / 2) :=
  ⟨by norm_num, (bearing_not_converted 3 (by norm_num)).2.2.2.2⟩

/-! ## Radial-band model dispatch -/

/-- Extended rationals for the rmax_frac entries, whose last entry is
typically np.inf. -/
inductive XQ where
  | fin (q : ℚ)
  | inf
deriving DecidableEq, Repr

/-- Multiplication of an rmax_frac entry by the (positive) scalar rmax, as in
rmax_frac * rmax: infinity times a positive scalar stays infinity. -/
def XQ.mulPos : XQ → ℚ → XQ
  | .fin a, m => .fin (a * m)
  | .inf, _ => .inf

/-- The comparison r >= rlim_min[i] of cyclone.py line 728: an infinite lower
bound is never satisfied by a finite r. -/
def XQ.leB : XQ → ℚ → Bool
  | .fin a, r => decide (a ≤ r)
  | .inf, _ => false

/-- The comparison r < rlim_max[i] of cyclone.py line 729: every finite r is
below an infinite upper bound. -/
def XQ.gtB : XQ → ℚ → Bool
  | .fin a, r => decide (r < a)
  | .inf, _ => true

/-- Embedding of cyclone.py line 723: rlim_min = np.append(0, rmax_frac)[0:-1],
the per-band lower-bound multipliers (0 in front, last entry dropped). -/
def rlim_min_list (rmax_frac : List XQ) : List XQ := (XQ.fin 0 :: rmax_frac).dropLast

/-- Embedding of the dispatch loop of Record.calculate_wind lines 726-729
(identical in calculate_pressure lines 970-973): the index of the first band
with rlim_min[i] <= r < rlim_max[i], or none when no band contains r. -/
def bandIndex (rmax_frac : List XQ) (rmax r : ℚ) : Option Nat :=
  let lo := (rlim_min_list rmax_frac).map (fun x => x.mulPos rmax)
  let hi := rmax_frac.map (fun x => x.mulPos rmax)
  let pairs := lo.zip hi
  let i := pairs.findIdx (fun p => p.1.leB r && p.2.gtB r)
  if i < pairs.length then some i else none

/-- C4: the radial bands are right-open [rlim_min[i], rmax_frac[i]*rmax) with
rlim_min[0] = 0, so a radius exactly at a band boundary selects the next
band; concretely with rmax_frac = [1, inf] and rmax = 50000, r = 50000
dispatches to the second model and r = 49999.999 to the first. -/
theorem radial_bands_right_open :
    (∀ f1 rmax r : ℚ, 0 < rmax → 0 < f1 →
      bandIndex [XQ.fin f1, XQ.inf] rmax r =
        if r < 0 then none else if r < f1 * rmax then some 0 else some 1) ∧
    bandIndex [XQ.fin 1, XQ.inf] 50000 50000 = some 1 ∧
    bandIndex [XQ.fin 1, XQ.inf] 50000 (49999999 / 1000) = some 0 := by
  refine ⟨?_,
    by norm_num [bandIndex, rlim_min_list, XQ.mulPos, XQ.leB, XQ.gtB, List.findIdx_cons],
    by norm_num [bandIndex, rlim_min_list, XQ.mulPos, XQ.leB, XQ.gtB, List.findIdx_cons]⟩
  intro f1 rmax r hrmax hf1
  have hpos : 0 < f1 * rmax := mul_pos hf1 hrmax
  simp only [bandIndex, rlim_min_list, XQ.mulPos, List.dropLast, List.map,
    List.zip, List.zipWith, List.findIdx, List.findIdx.go, XQ.leB, XQ.gtB]
  by_cases h0 : r < 0
  · rw [if_pos h0]
    have h1 : ¬ (0 : ℚ) ≤ r := not_le.mpr h0
    have h2 : ¬ f1 * rmax ≤ r := not_le.mpr (lt_trans h0 hpos)
    simp [h1, h2, zero_mul]
  · rw [if_neg h0]
    have h1 : (0 : ℚ) ≤ r := le_of_not_lt h0
    by_cases h2 : r < f1 * rmax
    · rw [if_pos h2]
      simp [h1, h2, zero_mul]
    · rw [if_neg h2]
      have h3 : f1 * rmax ≤ r := le_of_not_lt h2
      simp [h1, h2, h3, zero_mul]

/-- Witness for C4 exercising the general band characterization at a concrete
input. -/
theorem radial_bands_right_open_witness :
    (0 : ℚ) < 50000 ∧ (0 : ℚ) < 2 ∧
    bandIndex [XQ.fin 2, XQ.inf] 50000 100000 =
      (if (100000 : ℚ) < 0 then none else
        if (100000 : ℚ) < 2 * 50000 then some 0 else some 1) :=
  ⟨by norm_num, by norm_num,
    radial_bands_right_open.1 2 50000 100000 (by norm_num) (by norm_num)⟩

/-! ## Wind post-processing at the storm center -/

/-- Embedding of the post-processing of Record.calculate_wind lines 829-851.
st and ct are sin/cos of the original (counter-clockwise) input bearing, ca
and sa are cos/sin of the 19.2-degree rotation angle, and ustorm/vstorm are
the translation components with none = NaN.  The division guard
np.max([r, 1e-8]) is kept verbatim. -/
def calculate_wind_post (vcirc0 swrf tfac fraction r st ct ca sa : ℚ)
    (ustorm vstorm : Option ℚ) : ℚ × ℚ :=
  let vcirc := vcirc0 * swrf
  let denom := max r (1 / 100000000)
  let u := -vcirc * r * st / denom
  let v := vcirc * r * ct / denom
  let uv :=
    match ustorm, vstorm with
    | some us, some vs =>
      (u + fraction * (us * ca - vs * sa), v + fraction * (us * sa + vs * ca))
    | _, _ => (u, v)
  (uv.1 * tfac, uv.2 * tfac)

/-- C10: at the storm center r = 0 the divisor max(r, 1e-8) is the positive
constant 1e-8 (never zero; indeed positive for every r), the circular-wind
contribution vanishes exactly, and the returned wind is tfac * fraction times
the rotated translation velocity when it is known, and exactly (0, 0) when
either component is NaN. -/
theorem wind_at_center (vcirc0 swrf tfac fraction st ct ca sa : ℚ) :
    (∀ r : ℚ, (0 : ℚ) < max r (1 / 100000000)) ∧
    (∀ us vs : ℚ,
      calculate_wind_post vcirc0 swrf tfac fraction 0 st ct ca sa (some us) (some vs) =
        (tfac * (fraction * (us * ca - vs * sa)),
          tfac * (fraction * (us * sa + vs * ca)))) ∧
    (∀ o : Option ℚ,
      calculate_wind_post vcirc0 swrf tfac fraction 0 st ct ca sa none o = (0, 0) ∧
      calculate_wind_post vcirc0 swrf tfac fraction 0 st ct ca sa o none = (0, 0)) := by
  refine ⟨?_, ?_, ?_⟩
  · intro r
    exact lt_of_lt_of_le (by norm_num) (le_max_right r (1 / 100000000))
  · intro us vs
    simp only [calculate_wind_post]
    rw [Prod.ext_iff]
    constructor <;> · simp only [mul_zero, zero_mul, neg_zero, zero_div, zero_add]; ring
  · intro o
    cases o <;> constructor <;>
      simp [calculate_wind_post, mul_zero, zero_mul, neg_zero, zero_div, zero_add]

/-! ## Track.interpolate (cyclone.py lines 1156-1281) -/

/-- One cyclone observation as consumed by Track.interpolate.  Required
fields are plain rationals; optional fields (NaN-able) are Option values;
vinfo is the reported wind-threshold list and radinfo the per-threshold
quadrant-radius table (entries NaN-able), already in the 2d form that
np.atleast_2d produces on line 1206/1208. -/
structure RecordQ where
  timestamp : ℚ
  lon : ℚ
  lat : ℚ
  mslp : ℚ
  vmax : ℚ
  rmax : Option ℚ
  ustorm : Option ℚ
  vstorm : Option ℚ
  vinfo : List (Option ℚ)
  radinfo : List (List (Option ℚ))
deriving DecidableEq, Repr

/-- The vinfo slot of the interpolated record: Track.interpolate can store
either a scalar (possibly NaN) or a threshold list there. -/
inductive VinfoOut where
  | scal (v : Option ℚ)
  | arr (l : List (Option ℚ))
deriving DecidableEq, Repr

/-- The radinfo slot of the interpolated record: a scalar NaN or a radius
table. -/
inductive RadOut where
  | scal (v : Option ℚ)
  | table (t : List (List (Option ℚ)))
deriving DecidableEq, Repr

/-- The synthetic record produced by Track.interpolate. -/
structure IRecord where
  timestamp : ℚ
  lon : ℚ
  lat : ℚ
  mslp : ℚ
  vmax : ℚ
  rmax : Option ℚ
  ustorm : Option ℚ
  vstorm : Option ℚ
  vinfo : VinfoOut
  radinfo : RadOut
deriving DecidableEq, Repr

/-- Embedding of radinfo = radinfo * np.nan (lines 1231 and 1262): every
entry of the whole table becomes NaN. -/
def wipeTable (t : List (List (Option ℚ))) : List (List (Option ℚ)) :=
  t.map (fun row => row.map (fun _ => (none : Option ℚ)))

/-- One blended radius row (lines 1234-1235 / 1265-1266): entry j is
radinfo_left[i, j]*w_left + radinfo_right[i, j]*w_right with NaN
propagation. -/
def blendRowN (wl wr : ℚ) (ncols : Nat) (rowl rowr : List (Option ℚ)) : List (Option ℚ) :=
  (List.range ncols).map (fun j => blendO wl wr (rowl.getD j none) (rowr.getD j none))

/-- True when neither endpoint's wind threshold at index i is NaN
(the negation of the np.isnan test on lines 1230 / 1261). -/
def pairOkB (vl vr : List (Option ℚ)) (i : Nat) : Bool :=
  (vl.getD i none).isSome && (vr.getD i none).isSome

/-- One iteration of the radinfo interpolation loop (lines 1229-1235 and
1260-1266): a NaN threshold pair wipes the whole table accumulated so far,
otherwise row i is set to the blended row. -/
def blendStep (wl wr : ℚ) (vl vr : List (Option ℚ)) (rl rr : List (List (Option ℚ)))
    (ncols : Nat) (tbl : List (List (Option ℚ))) (i : Nat) : List (List (Option ℚ)) :=
  if pairOkB vl vr i then
    tbl.set i (blendRowN wl wr ncols (rl.getD i []) (rr.getD i []))
  else wipeTable tbl

/-- The radinfo interpolation loop over indices 0..m-1 starting from the
np.zeros table of shape (m, ncols). -/
def blendLoop (wl wr : ℚ) (vl vr : List (Option ℚ)) (rl rr : List (List (Option ℚ)))
    (ncols m : Nat) : List (List (Option ℚ)) :=
  (List.range m).foldl (blendStep wl wr vl vr rl rr ncols)
    (List.replicate m (List.replicate ncols (some 0)))

/-- Embedding of the vinfo/radinfo interpolation block of Track.interpolate
(lines 1200-1266).  Returns none when the Python code would leave the local
variables vinfo/radinfo unassigned (both endpoint lists empty). -/
def blendPhase (wl wr : ℚ) (vl vr : List (Option ℚ)) (rl rr : List (List (Option ℚ))) :
    Option (VinfoOut × RadOut) :=
  if vl.length ≠ vr.length then
    -- different numbers of thresholds: truncate to the common length
    let m := min vl.length vr.length
    let ncols := if vl.length > vr.length then (rl.headD []).length else (rr.headD []).length
    some (.arr (vl.take m), .table (blendLoop wl wr vl vr rl rr ncols m))
  else if vl.length = 1 then
    -- single threshold: NaN or zero magnitude at either endpoint gives NaN
    if vl.getD 0 none = none ∨ vr.getD 0 none = none then some (.scal none, .scal none)
    else if vl.getD 0 none = some 0 ∨ vr.getD 0 none = some 0 then some (.scal none, .scal none)
    else some (.scal (vl.getD 0 none),
      .table ((List.range rl.length).map (fun j =>
        List.zipWith (blendO wl wr) (rl.getD j []) (rr.getD j []))))
  else if 1 < vl.length then
    some (.arr vl, .table (blendLoop wl wr vl vr rl rr (rl.headD []).length vl.length))
  else none

/-- np.searchsorted(a, v, side=left): first index whose element is >= v
(the list length when there is none). -/
def searchsortedL (ts : List ℚ) (x : ℚ) : Nat := ts.findIdx (fun t => decide (x ≤ t))

/-- The bracket indices and time weights computed on lines 1169-1186. -/
structure BracketW where
  iL : Nat
  iR : Nat
  wL : ℚ
  wR : ℚ
deriving DecidableEq, Repr

/-- Embedding of lines 1169-1186 of Track.interpolate: the searchsorted
bracket and its linear time weights (weight 1 on the left when the bracket
collapses). -/
def interpWeights (ts : List ℚ) (t : ℚ) : BracketW :=
  let i_right := searchsortedL ts t
  let i_left := if i_right = 0 then 0 else i_right - 1
  let v_left := ts.getD i_left 0
  let v_right := ts.getD i_right 0
  let w_left := if i_left < i_right then (v_right - t) / (v_right - v_left) else 1
  ⟨i_left, i_right, w_left, 1 - w_left⟩

/-- Fallback record for out-of-range list access in the embedding (never
reached under the theorems' hypotheses). -/
def defaultRecordQ : RecordQ := ⟨0, 0, 0, 0, 0, none, none, none, [], []⟩

/-- Embedding of Track.interpolate (cyclone.py lines 1156-1281): range
check, bracket and weights, direct blending of the scalar fields, the
vinfo/radinfo block, and the final verbatim override when a weight is
exactly 1. -/
def interpolate (recs : List RecordQ) (t : ℚ) : Except String IRecord :=
  let ts := recs.map (fun rec => rec.timestamp)
  if recs.length = 0 then .error "no records" else
  if ¬ (t ≤ ts.getD (ts.length - 1) 0 ∧ ts.getD 0 0 ≤ t) then
    .error "Out of interpolation range" else
  let bw := interpWeights ts t
  let recL := recs.getD bw.iL defaultRecordQ
  let recR := recs.getD bw.iR defaultRecordQ
  let vrad : Option (VinfoOut × RadOut) :=
    if bw.wR = 1 then some (.arr recR.vinfo, .table recR.radinfo)
    else if bw.wL = 1 then some (.arr recL.vinfo, .table recL.radinfo)
    else blendPhase bw.wL bw.wR recL.vinfo recR.vinfo recL.radinfo recR.radinfo
  match vrad with
  | none => .error "UnboundLocalError: vinfo"
  | some (vf, rf) => .ok {
      timestamp := t,
      lon := recL.lon * bw.wL + recR.lon * bw.wR,
      lat := recL.lat * bw.wL + recR.lat * bw.wR,
      mslp := recL.mslp * bw.wL + recR.mslp * bw.wR,
      vmax := recL.vmax * bw.wL + recR.vmax * bw.wR,
      rmax := blendO bw.wL bw.wR recL.rmax recR.rmax,
      ustorm := blendO bw.wL bw.wR recL.ustorm recR.ustorm,
      vstorm := blendO bw.wL bw.wR recL.vstorm recR.vstorm,
      vinfo := vf,
      radinfo := rf }

/-! ### Helper lemmas about the interpolation embedding -/

lemma getD_eq_get {α : Type} (l : List α) (i : Nat) (d : α) (h : i < l.length) :
    l.getD i d = l.get ⟨i, h⟩ := by
  simp [List.getD_eq_getElem?_getD, List.getElem?_eq_getElem h]

lemma getD_lt_of_pairwise (ts : List ℚ) (hs : ts.Pairwise (fun a b => a < b)) (i j : Nat)
    (hij : i < j) (hj : j < ts.length) : ts.getD i 0 < ts.getD j 0 := by
  have hi : i < ts.length := lt_trans hij hj
  rw [getD_eq_get ts i 0 hi, getD_eq_get ts j 0 hj]
  exact List.pairwise_iff_get.mp hs ⟨i, hi⟩ ⟨j, hj⟩ hij

lemma getD_le_of_pairwise (ts : List ℚ) (hs : ts.Pairwise (fun a b => a < b)) (i j : Nat)
    (hij : i ≤ j) (hj : j < ts.length) : ts.getD i 0 ≤ ts.getD j 0 := by
  rcases lt_or_eq_of_le hij with h | h
  · exact le_of_lt (getD_lt_of_pairwise ts hs i j h hj)
  · rw [h]

lemma searchsortedL_eq (ts : List ℚ) (x : ℚ) (k : Nat) (hk : k < ts.length)
    (hbefore : ∀ i, i < k → ts.getD i 0 < x) (hat : x ≤ ts.getD k 0) :
    searchsortedL ts x = k := by
  induction ts generalizing k with
  | nil => exact absurd hk (by simp)
  | cons t ts ih =>
    cases k with
    | zero =>
      have ht : x ≤ t := by simpa using hat
      simp [searchsortedL, List.findIdx_cons, ht]
    | succ k =>
      have h0 : t < x := by simpa using hbefore 0 (Nat.succ_pos k)
      have ht : ¬ x ≤ t := not_le.mpr h0
      have ihr : searchsortedL ts x = k := ih k (by simpa using hk)
        (fun i hi => by simpa using hbefore (i+1) (Nat.succ_lt_succ hi))
        (by simpa using hat)
      simp only [searchsortedL] at ihr
      simp [searchsortedL, List.findIdx_cons, ht, ihr]

lemma interpWeights_exact_pos (ts : List ℚ) (k : Nat) (hk : k < ts.length) (hpos : 0 < k)
    (hs : ts.Pairwise (fun a b => a < b)) :
    interpWeights ts (ts.getD k 0) = ⟨k - 1, k, 0, 1⟩ := by
  have hfind := searchsortedL_eq ts (ts.getD k 0) k hk
    (fun i hi => getD_lt_of_pairwise ts hs i k hi hk) (le_refl _)
  have hk0 : ¬ k = 0 := Nat.pos_iff_ne_zero.mp hpos
  have hlt : k - 1 < k := Nat.sub_lt hpos Nat.one_pos
  simp only [interpWeights, hfind, if_neg hk0, if_pos hlt, sub_self, zero_div]
  norm_num

lemma interpWeights_exact_zero (ts : List ℚ) (h0 : 0 < ts.length) :
    interpWeights ts (ts.getD 0 0) = ⟨0, 0, 1, 0⟩ := by
  have hfind := searchsortedL_eq ts (ts.getD 0 0) 0 h0
    (fun i hi => absurd hi (Nat.not_lt_zero i)) (le_refl _)
  simp only [interpWeights, hfind, if_pos rfl, if_neg (lt_irrefl 0)]
  norm_num

lemma blendO_zero_one (a b : Option ℚ) (ha : a ≠ none) : blendO 0 1 a b = b := by
  cases a with
  | none => exact absurd rfl ha
  | some x => cases b <;> simp [blendO, mulO, addO]

lemma blendO_one_zero_self (a : Option ℚ) : blendO 1 0 a a = a := by
  cases a <;> simp [blendO, mulO, addO]

lemma map_timestamp_getD (recs : List RecordQ) (i : Nat) (h : i < recs.length) :
    (recs.map (fun rec => rec.timestamp)).getD i 0 = (recs.getD i defaultRecordQ).timestamp := by
  rw [getD_eq_get _ i 0 (by simpa using h), getD_eq_get recs i defaultRecordQ h]
  simp

lemma interpolate_at_exact_pos (recs : List RecordQ) (k : Nat) (hk : k < recs.length)
    (hpos : 0 < k)
    (hs : (recs.map (fun rec => rec.timestamp)).Pairwise (fun a b => a < b)) :
    interpolate recs ((recs.getD k defaultRecordQ).timestamp) = .ok {
      timestamp := (recs.getD k defaultRecordQ).timestamp,
      lon := (recs.getD k defaultRecordQ).lon,
      lat := (recs.getD k defaultRecordQ).lat,
      mslp := (recs.getD k defaultRecordQ).mslp,
      vmax := (recs.getD k defaultRecordQ).vmax,
      rmax := blendO 0 1 (recs.getD (k-1) defaultRecordQ).rmax
        (recs.getD k defaultRecordQ).rmax,
      ustorm := blendO 0 1 (recs.getD (k-1) defaultRecordQ).ustorm
        (recs.getD k defaultRecordQ).ustorm,
      vstorm := blendO 0 1 (recs.getD (k-1) defaultRecordQ).vstorm
        (recs.getD k defaultRecordQ).vstorm,
      vinfo := .arr (recs.getD k defaultRecordQ).vinfo,
      radinfo := .table (recs.getD k defaultRecordQ).radinfo } := by
  have hlen : (recs.map (fun rec => rec.timestamp)).length = recs.length :=
    List.length_map _ _
  have htk : (recs.map (fun rec => rec.timestamp)).getD k 0 =
      (recs.getD k defaultRecordQ).timestamp := map_timestamp_getD recs k hk
  have hne : ¬ recs.length = 0 := by omega
  have hlast : (recs.getD k defaultRecordQ).timestamp ≤
      (recs.map (fun rec => rec.timestamp)).getD
        ((recs.map (fun rec => rec.timestamp)).length - 1) 0 := by
    rw [← htk, hlen]
    exact getD_le_of_pairwise _ hs k (recs.length - 1) (by omega) (by rw [hlen]; omega)
  have hfirst : (recs.map (fun rec => rec.timestamp)).getD 0 0 ≤
      (recs.getD k defaultRecordQ).timestamp := by
    rw [← htk]
    exact getD_le_of_pairwise _ hs 0 k (by omega) (by rw [hlen]; exact hk)
  have hw : interpWeights (recs.map (fun rec => rec.timestamp))
      ((recs.getD k defaultRecordQ).timestamp) = ⟨k - 1, k, 0, 1⟩ := by
    rw [← htk]
    exact interpWeights_exact_pos _ k (by rw [hlen]; exact hk) hpos hs
  simp only [interpolate, if_neg hne, hw]
  rw [if_neg (not_not_intro ⟨hlast, hfirst⟩)]
  norm_num

lemma interpolate_at_exact_zero (recs : List RecordQ) (h0 : 0 < recs.length)
    (hs : (recs.map (fun rec => rec.timestamp)).Pairwise (fun a b => a < b)) :
    interpolate recs ((recs.getD 0 defaultRecordQ).timestamp) = .ok {
      timestamp := (recs.getD 0 defaultRecordQ).timestamp,
      lon := (recs.getD 0 defaultRecordQ).lon,
      lat := (recs.getD 0 defaultRecordQ).lat,
      mslp := (recs.getD 0 defaultRecordQ).mslp,
      vmax := (recs.getD 0 defaultRecordQ).vmax,
      rmax := (recs.getD 0 defaultRecordQ).rmax,
      ustorm := (recs.getD 0 defaultRecordQ).ustorm,
      vstorm := (recs.getD 0 defaultRecordQ).vstorm,
      vinfo := .arr (recs.getD 0 defaultRecordQ).vinfo,
      radinfo := .table (recs.getD 0 defaultRecordQ).radinfo } := by
  have hlen : (recs.map (fun rec => rec.timestamp)).length = recs.length :=
    List.length_map _ _
  have htk : (recs.map (fun rec => rec.timestamp)).getD 0 0 =
      (recs.getD 0 defaultRecordQ).timestamp := map_timestamp_getD recs 0 h0
  have hne : ¬ recs.length = 0 := by omega
  have hlast : (recs.getD 0 defaultRecordQ).timestamp ≤
      (recs.map (fun rec => rec.timestamp)).getD
        ((recs.map (fun rec => rec.timestamp)).length - 1) 0 := by
    rw [← htk, hlen]
    exact getD_le_of_pairwise _ hs 0 (recs.length - 1) (by omega) (by rw [hlen]; omega)
  have hfirst : (recs.map (fun rec => rec.timestamp)).getD 0 0 ≤
      (recs.getD 0 defaultRecordQ).timestamp := le_of_eq htk
  have hw : interpWeights (recs.map (fun rec => rec.timestamp))
      ((recs.getD 0 defaultRecordQ).timestamp) = ⟨0, 0, 1, 0⟩ := by
    rw [← htk]
    exact interpWeights_exact_zero _ (by rw [hlen]; exact h0)
  simp only [interpolate, if_neg hne, hw]
  rw [if_neg (not_not_intro ⟨hlast, hfirst⟩)]
  norm_num [blendO_one_zero_self]

/-- C6 (amended): interpolating a Track at a timestamp exactly equal to an
existing record reproduces that record's required scalar fields (lon, lat,
mslp, vmax) exactly and takes vinfo/radinfo verbatim (bypassing blending);
the NaN-able scalars (rmax, ustorm, vstorm) are reproduced exactly whenever
the query hits the first record or the other bracket endpoint's
corresponding field is not NaN (a NaN there still propagates through the
zero-weight product). -/
theorem interpolate_exact_timestamp (recs : List RecordQ) (k : Nat) (hk : k < recs.length)
    (hs : (recs.map (fun rec => rec.timestamp)).Pairwise (fun a b => a < b)) :
    (interpolate recs ((recs.getD k defaultRecordQ).timestamp)).map
        (fun ir => (ir.lon, ir.lat, ir.mslp, ir.vmax)) =
      .ok ((recs.getD k defaultRecordQ).lon, (recs.getD k defaultRecordQ).lat,
        (recs.getD k defaultRecordQ).mslp, (recs.getD k defaultRecordQ).vmax) ∧
    (interpolate recs ((recs.getD k defaultRecordQ).timestamp)).map
        (fun ir => (ir.vinfo, ir.radinfo)) =
      .ok (.arr (recs.getD k defaultRecordQ).vinfo,
        .table (recs.getD k defaultRecordQ).radinfo) ∧
    ((k = 0 ∨ (recs.getD (k-1) defaultRecordQ).rmax ≠ none) →
      (interpolate recs ((recs.getD k defaultRecordQ).timestamp)).map
        (fun ir => ir.rmax) = .ok (recs.getD k defaultRecordQ).rmax) ∧
    ((k = 0 ∨ (recs.getD (k-1) defaultRecordQ).ustorm ≠ none) →
      (interpolate recs ((recs.getD k defaultRecordQ).timestamp)).map
        (fun ir => ir.ustorm) = .ok (recs.getD k defaultRecordQ).ustorm) ∧
    ((k = 0 ∨ (recs.getD (k-1) defaultRecordQ).vstorm ≠ none) →
      (interpolate recs ((recs.getD k defaultRecordQ).timestamp)).map
        (fun ir => ir.vstorm) = .ok (recs.getD k defaultRecordQ).vstorm) := by
  rcases Nat.eq_zero_or_pos k with hk0 | hpos
  · subst hk0
    rw [interpolate_at_exact_zero recs (by omega) hs]
    refine ⟨rfl, rfl, ?_, ?_, ?_⟩ <;> intro _ <;> rfl
  · rw [interpolate_at_exact_pos recs k hk hpos hs]
    refine ⟨rfl, rfl, ?_, ?_, ?_⟩ <;> intro h <;>
      rcases h with h | h
    · omega
    · have hb := blendO_zero_one ((recs.getD (k-1) defaultRecordQ).rmax)
        ((recs.getD k defaultRecordQ).rmax) h
      simp only [List.getD_eq_getElem?_getD] at hb
      simp [Except.map, hb]
    · omega
    · have hb := blendO_zero_one ((recs.getD (k-1) defaultRecordQ).ustorm)
        ((recs.getD k defaultRecordQ).ustorm) h
      simp only [List.getD_eq_getElem?_getD] at hb
      simp [Except.map, hb]
    · omega
    · have hb := blendO_zero_one ((recs.getD (k-1) defaultRecordQ).vstorm)
        ((recs.getD k defaultRecordQ).vstorm) h
      simp only [List.getD_eq_getElem?_getD] at hb
      simp [Except.map, hb]

/-- First record of the C6 counterexample track: its rmax is NaN. -/
def c6RecA : RecordQ := ⟨0, 88, 20, 100000, 30, none, some 1, some 1,
  [some 30], [[some 50000, some 50000, some 50000, some 50000]]⟩

/-- Second record of the C6 counterexample track: a known rmax of 40000 m,
timestamp 3600 s after the first. -/
def c6RecB : RecordQ := ⟨3600, 89, 21, 99000, 35, some 40000, some 1, some 1,
  [some 30], [[some 60000, some 60000, some 60000, some 60000]]⟩

/-- C6 counterexample: querying the two-record track exactly at the second
record's timestamp does NOT reproduce its rmax: the first record's NaN rmax
propagates through the zero-weight product (nan * 0 = nan), so the
interpolated rmax is NaN, not 40000. -/
theorem interpolate_exact_timestamp_cex :
    (interpolate [c6RecA, c6RecB] 3600).map (fun ir => ir.rmax) = .ok none ∧
    c6RecB.rmax = some 40000 ∧ (none : Option ℚ) ≠ some 40000 := by
  have h := interpolate_at_exact_pos [c6RecA, c6RecB] 1 (by norm_num)
    (by norm_num) (by simp [c6RecA, c6RecB])
  have h36 : ([c6RecA, c6RecB].getD 1 defaultRecordQ).timestamp = 3600 := rfl
  rw [h36] at h
  rw [h]
  refine ⟨?_, rfl, by simp⟩
  simp [Except.map, c6RecA, c6RecB, blendO, mulO, addO]

/-- First record of the C6 witness track (all optional scalars known). -/
def c6WitA : RecordQ := ⟨0, 88, 20, 100000, 30, some 20000, some 1, some 1,
  [some 30], [[some 50000, some 50000, some 50000, some 50000]]⟩

/-- Second record of the C6 witness track. -/
def c6WitB : RecordQ := ⟨3600, 89, 21, 99000, 35, some 40000, some 2, some 2,
  [some 30], [[some 60000, some 60000, some 60000, some 60000]]⟩

/-- Witness for C6 at a concrete two-record track, exercising the k = 1
case with a non-NaN left endpoint. -/
theorem interpolate_exact_timestamp_witness :
    ((1 < ([c6WitA, c6WitB] : List RecordQ).length) ∧
      (([c6WitA, c6WitB].map (fun rec => rec.timestamp)).Pairwise (fun a b => a < b)) ∧
      (([c6WitA, c6WitB].getD 0 defaultRecordQ).rmax ≠ none)) ∧
    (interpolate [c6WitA, c6WitB] (([c6WitA, c6WitB].getD 1 defaultRecordQ).timestamp)).map
        (fun ir => ir.rmax) = .ok (([c6WitA, c6WitB].getD 1 defaultRecordQ)).rmax := by
  refine ⟨⟨by norm_num, by simp [c6WitA, c6WitB], by simp [c6WitA]⟩, ?_⟩
  exact (interpolate_exact_timestamp [c6WitA, c6WitB] 1 (by norm_num)
    (by simp [c6WitA, c6WitB])).2.2.1 (Or.inr (by simp [c6WitA]))


/-! ### The radinfo blending loop and its whole-table NaN wipe -/

lemma getD_set_eq {α : Type} (l : List α) (i : Nat) (x d : α) (h : i < l.length) :
    (l.set i x).getD i d = x := by
  simp [List.getD_eq_getElem?_getD, List.getElem?_set, h]

lemma getD_set_ne {α : Type} (l : List α) (i j : Nat) (x d : α) (h : i ≠ j) :
    (l.set i x).getD j d = l.getD j d := by
  simp [List.getD_eq_getElem?_getD, List.getElem?_set_ne h]

lemma getD_replicate {α : Type} (n : Nat) (a d : α) (j : Nat) (h : j < n) :
    (List.replicate n a).getD j d = a := by
  simp [List.getD_eq_getElem?_getD, List.getElem?_replicate, h]

lemma wipeTable_getD (t : List (List (Option ℚ))) (j : Nat) (h : j < t.length) :
    (wipeTable t).getD j [] = List.replicate (t.getD j []).length none := by
  unfold wipeTable
  rw [getD_eq_get (t.map _) j [] (by simpa using h), getD_eq_get t j [] h]
  simp [List.map_const]

lemma blendRowN_length (wl wr : ℚ) (ncols : Nat) (rowl rowr : List (Option ℚ)) :
    (blendRowN wl wr ncols rowl rowr).length = ncols := by
  simp [blendRowN]

open Classical in
lemma blendLoop_aux (wl wr : ℚ) (vl vr : List (Option ℚ)) (rl rr : List (List (Option ℚ)))
    (ncols n : Nat) (m : Nat) (hm : m ≤ n) :
    ((List.range m).foldl (blendStep wl wr vl vr rl rr ncols)
        (List.replicate n (List.replicate ncols (some 0)))).length = n ∧
    ∀ j, j < n →
      ((List.range m).foldl (blendStep wl wr vl vr rl rr ncols)
          (List.replicate n (List.replicate ncols (some 0)))).getD j [] =
        if j < m ∧ pairOkB vl vr j = true ∧
            (∀ i, j < i → i < m → pairOkB vl vr i = true)
          then blendRowN wl wr ncols (rl.getD j []) (rr.getD j [])
        else if ∃ i, i < m ∧ pairOkB vl vr i = false then List.replicate ncols none
        else List.replicate ncols (some 0) := by
  induction m with
  | zero =>
    refine ⟨by simp, ?_⟩
    intro j hj
    simp only [List.range_zero, List.foldl_nil]
    rw [getD_replicate n _ [] j hj]
    simp
  | succ m ih =>
    obtain ⟨ihlen, ihrow⟩ := ih (le_trans (Nat.le_succ m) hm)
    rw [List.range_succ, List.foldl_append, List.foldl_cons, List.foldl_nil]
    set T := (List.range m).foldl (blendStep wl wr vl vr rl rr ncols)
      (List.replicate n (List.replicate ncols (some 0))) with hT
    by_cases hok : pairOkB vl vr m = true
    · constructor
      · unfold blendStep
        rw [if_pos hok]
        simp [List.length_set, ihlen]
      · intro j hj
        unfold blendStep
        rw [if_pos hok]
        by_cases hjm : j = m
        · subst hjm
          rw [getD_set_eq _ j _ [] (by rw [ihlen]; exact hj)]
          rw [if_pos ⟨Nat.lt_succ_self j, hok, fun i hji him => absurd him (by omega)⟩]
        · rw [getD_set_ne _ m j _ [] (fun hcontra => hjm hcontra.symm)]
          rw [ihrow j hj]
          by_cases hc1 : j < m + 1 ∧ pairOkB vl vr j = true ∧
              (∀ i, j < i → i < m + 1 → pairOkB vl vr i = true)
          · rw [if_pos ⟨by omega, hc1.2.1, fun i hji him => hc1.2.2 i hji (by omega)⟩,
              if_pos hc1]
          · have hc1m : ¬ (j < m ∧ pairOkB vl vr j = true ∧
                (∀ i, j < i → i < m → pairOkB vl vr i = true)) := by
              rintro ⟨ha, hb, hcc⟩
              refine hc1 ⟨by omega, hb, fun i hji him => ?_⟩
              rcases Nat.lt_succ_iff_lt_or_eq.mp him with hlt | heq
              · exact hcc i hji hlt
              · subst heq; exact hok
            rw [if_neg hc1m, if_neg hc1]
            by_cases hc2 : ∃ i, i < m ∧ pairOkB vl vr i = false
            · obtain ⟨i, hi1, hi2⟩ := hc2
              rw [if_pos ⟨i, hi1, hi2⟩, if_pos ⟨i, by omega, hi2⟩]
            · have hc2m : ¬ ∃ i, i < m + 1 ∧ pairOkB vl vr i = false := by
                rintro ⟨i, hi1, hi2⟩
                rcases Nat.lt_succ_iff_lt_or_eq.mp hi1 with hlt | heq
                · exact hc2 ⟨i, hlt, hi2⟩
                · subst heq; simp [hok] at hi2
              rw [if_neg hc2, if_neg hc2m]
    · constructor
      · unfold blendStep
        rw [if_neg hok]
        simp [wipeTable, ihlen]
      · intro j hj
        have hokf : pairOkB vl vr m = false := by
          revert hok; cases pairOkB vl vr m <;> simp
        unfold blendStep
        rw [if_neg hok]
        rw [wipeTable_getD _ j (by rw [ihlen]; exact hj)]
        rw [ihrow j hj]
        have hfalse : ¬ (j < m + 1 ∧ pairOkB vl vr j = true ∧
            (∀ i, j < i → i < m + 1 → pairOkB vl vr i = true)) := by
          rintro ⟨ha, hb, hcc⟩
          rcases Nat.lt_succ_iff_lt_or_eq.mp ha with hlt | heq
          · have := hcc m hlt (Nat.lt_succ_self m)
            simp [hokf] at this
          · subst heq; simp [hokf] at hb
        have hex : ∃ i, i < m + 1 ∧ pairOkB vl vr i = false :=
          ⟨m, Nat.lt_succ_self m, hokf⟩
        split_ifs <;> simp_all [blendRowN_length]

open Classical in
lemma blendLoop_rows (wl wr : ℚ) (vl vr : List (Option ℚ)) (rl rr : List (List (Option ℚ)))
    (ncols n j : Nat) (hj : j < n) :
    (blendLoop wl wr vl vr rl rr ncols n).getD j [] =
      if pairOkB vl vr j = true ∧ (∀ i, j < i → i < n → pairOkB vl vr i = true)
      then blendRowN wl wr ncols (rl.getD j []) (rr.getD j [])
      else List.replicate ncols none := by
  obtain ⟨hlen, hrow⟩ := blendLoop_aux wl wr vl vr rl rr ncols n n (le_refl n)
  unfold blendLoop
  rw [hrow j hj]
  by_cases hc : pairOkB vl vr j = true ∧ (∀ i, j < i → i < n → pairOkB vl vr i = true)
  · rw [if_pos ⟨hj, hc.1, hc.2⟩, if_pos hc]
  · rw [if_neg (fun hx => hc ⟨hx.2.1, hx.2.2⟩), if_neg hc]
    have hex : ∃ i, i < n ∧ pairOkB vl vr i = false := by
      by_cases hA : pairOkB vl vr j = true
      · have hB : ¬ (∀ i, j < i → i < n → pairOkB vl vr i = true) :=
          fun hB => hc ⟨hA, hB⟩
        push_neg at hB
        obtain ⟨i, h1, h2, h3⟩ := hB
        exact ⟨i, h2, by revert h3; cases pairOkB vl vr i <;> simp⟩
      · exact ⟨j, hj, by revert hA; cases pairOkB vl vr j <;> simp⟩
    rw [if_pos hex]

lemma interpWeights_between (ta tb t : ℚ) (h1 : ta < t) (h2 : t ≤ tb) :
    interpWeights [ta, tb] t = ⟨0, 1, (tb - t) / (tb - ta), 1 - (tb - t) / (tb - ta)⟩ := by
  have hfind : searchsortedL [ta, tb] t = 1 := by
    apply searchsortedL_eq [ta, tb] t 1 (by norm_num)
    · intro i hi
      have hi0 : i = 0 := by omega
      subst hi0
      simpa using h1
    · simpa using h2
  simp only [interpWeights, hfind]
  norm_num

lemma interpolate_between_two (ra rb : RecordQ) (t : ℚ) (vfrf : VinfoOut × RadOut)
    (h1 : ra.timestamp < t) (h2 : t < rb.timestamp)
    (hb : blendPhase ((rb.timestamp - t) / (rb.timestamp - ra.timestamp))
        (1 - (rb.timestamp - t) / (rb.timestamp - ra.timestamp))
        ra.vinfo rb.vinfo ra.radinfo rb.radinfo = some vfrf) :
    interpolate [ra, rb] t = .ok {
      timestamp := t,
      lon := ra.lon * ((rb.timestamp - t) / (rb.timestamp - ra.timestamp)) +
        rb.lon * (1 - (rb.timestamp - t) / (rb.timestamp - ra.timestamp)),
      lat := ra.lat * ((rb.timestamp - t) / (rb.timestamp - ra.timestamp)) +
        rb.lat * (1 - (rb.timestamp - t) / (rb.timestamp - ra.timestamp)),
      mslp := ra.mslp * ((rb.timestamp - t) / (rb.timestamp - ra.timestamp)) +
        rb.mslp * (1 - (rb.timestamp - t) / (rb.timestamp - ra.timestamp)),
      vmax := ra.vmax * ((rb.timestamp - t) / (rb.timestamp - ra.timestamp)) +
        rb.vmax * (1 - (rb.timestamp - t) / (rb.timestamp - ra.timestamp)),
      rmax := blendO ((rb.timestamp - t) / (rb.timestamp - ra.timestamp))
        (1 - (rb.timestamp - t) / (rb.timestamp - ra.timestamp)) ra.rmax rb.rmax,
      ustorm := blendO ((rb.timestamp - t) / (rb.timestamp - ra.timestamp))
        (1 - (rb.timestamp - t) / (rb.timestamp - ra.timestamp)) ra.ustorm rb.ustorm,
      vstorm := blendO ((rb.timestamp - t) / (rb.timestamp - ra.timestamp))
        (1 - (rb.timestamp - t) / (rb.timestamp - ra.timestamp)) ra.vstorm rb.vstorm,
      vinfo := vfrf.1,
      radinfo := vfrf.2 } := by
  obtain ⟨vf, rf⟩ := vfrf
  have hab : ra.timestamp < rb.timestamp := lt_trans h1 h2
  have hden : 0 < rb.timestamp - ra.timestamp := by linarith
  have hnum : 0 < rb.timestamp - t := by linarith
  have hwl_pos : 0 < (rb.timestamp - t) / (rb.timestamp - ra.timestamp) :=
    div_pos hnum hden
  have hwl_lt1 : (rb.timestamp - t) / (rb.timestamp - ra.timestamp) < 1 := by
    rw [div_lt_one hden]; linarith
  have hL : ¬ ((rb.timestamp - t) / (rb.timestamp - ra.timestamp) = 1) :=
    ne_of_lt hwl_lt1
  have hR : ¬ (1 - (rb.timestamp - t) / (rb.timestamp - ra.timestamp) = 1) := by
    intro h
    have : (rb.timestamp - t) / (rb.timestamp - ra.timestamp) = 0 := by linarith
    rw [this] at hwl_pos
    exact lt_irrefl 0 hwl_pos
  have hw := interpWeights_between ra.timestamp rb.timestamp t h1 (le_of_lt h2)
  simp only [interpolate, List.map_cons, List.map_nil, hw]
  rw [if_neg (by norm_num)]
  rw [if_neg (not_not_intro ⟨by simpa using le_of_lt h2, by simpa using le_of_lt h1⟩)]
  simp only [List.getD_cons_zero, List.getD_cons_succ, if_neg hR, if_neg hL, hb]

open Classical in
/-- C7 (amended): for a query strictly between two bracketing records with
equal-length threshold lists (more than one threshold), the interpolated
radinfo is the table produced by the blending loop, and a NaN threshold pair
does NOT only kill its own row: the statement radinfo = radinfo * np.nan
wipes the whole table accumulated so far, so row j survives as the
time-weight blend exactly when its own pair is non-NaN and every pair at a
LATER index is non-NaN; otherwise row j (including earlier already-blended
rows) is entirely NaN. -/
theorem radinfo_nan_wipes_prior_rows (ra rb : RecordQ) (t : ℚ) (j : Nat)
    (h1 : ra.timestamp < t) (h2 : t < rb.timestamp)
    (hlen : rb.vinfo.length = ra.vinfo.length) (hgt1 : 1 < ra.vinfo.length)
    (hj : j < ra.vinfo.length) :
    (interpolate [ra, rb] t).map (fun ir => ir.radinfo) =
      .ok (.table (blendLoop ((rb.timestamp - t) / (rb.timestamp - ra.timestamp))
        (1 - (rb.timestamp - t) / (rb.timestamp - ra.timestamp))
        ra.vinfo rb.vinfo ra.radinfo rb.radinfo
        (ra.radinfo.headD []).length ra.vinfo.length)) ∧
    (blendLoop ((rb.timestamp - t) / (rb.timestamp - ra.timestamp))
        (1 - (rb.timestamp - t) / (rb.timestamp - ra.timestamp))
        ra.vinfo rb.vinfo ra.radinfo rb.radinfo
        (ra.radinfo.headD []).length ra.vinfo.length).getD j [] =
      (if pairOkB ra.vinfo rb.vinfo j = true ∧
          (∀ i, j < i → i < ra.vinfo.length → pairOkB ra.vinfo rb.vinfo i = true)
        then blendRowN ((rb.timestamp - t) / (rb.timestamp - ra.timestamp))
          (1 - (rb.timestamp - t) / (rb.timestamp - ra.timestamp))
          (ra.radinfo.headD []).length (ra.radinfo.getD j []) (rb.radinfo.getD j [])
        else List.replicate (ra.radinfo.headD []).length none) := by
  have hbp : blendPhase ((rb.timestamp - t) / (rb.timestamp - ra.timestamp))
      (1 - (rb.timestamp - t) / (rb.timestamp - ra.timestamp))
      ra.vinfo rb.vinfo ra.radinfo rb.radinfo =
      some (.arr ra.vinfo, .table (blendLoop
        ((rb.timestamp - t) / (rb.timestamp - ra.timestamp))
        (1 - (rb.timestamp - t) / (rb.timestamp - ra.timestamp))
        ra.vinfo rb.vinfo ra.radinfo rb.radinfo
        (ra.radinfo.headD []).length ra.vinfo.length)) := by
    unfold blendPhase
    rw [if_neg (fun h => h hlen.symm), if_neg (by omega), if_pos hgt1]
  constructor
  · rw [interpolate_between_two ra rb t _ h1 h2 hbp]
    rfl
  · exact blendLoop_rows ((rb.timestamp - t) / (rb.timestamp - ra.timestamp))
      (1 - (rb.timestamp - t) / (rb.timestamp - ra.timestamp))
      ra.vinfo rb.vinfo ra.radinfo rb.radinfo
      (ra.radinfo.headD []).length ra.vinfo.length j hj

/-- First record of the C7 counterexample track: two thresholds, the second
one NaN; the first threshold has a complete radius row. -/
def c7RecA : RecordQ := ⟨0, 88, 20, 100000, 30, some 30000, some 1, some 1,
  [some 30, none],
  [[some 50000, some 50000, some 50000, some 50000],
   [some 10000, some 10000, some 10000, some 10000]]⟩

/-- Second record of the C7 counterexample track: both thresholds known. -/
def c7RecB : RecordQ := ⟨7200, 89, 21, 99000, 35, some 30000, some 1, some 1,
  [some 30, some 40],
  [[some 60000, some 60000, some 60000, some 60000],
   [some 20000, some 20000, some 20000, some 20000]]⟩

/-- C7 counterexample: at the midpoint query (weights 1/2, 1/2) the NaN pair
at index 1 wipes the WHOLE radinfo table: row 0, whose threshold pair is
non-NaN at both endpoints and which the claim says is still blended to
[55000, 55000, 55000, 55000], comes out entirely NaN instead. -/
theorem radinfo_nan_wipes_prior_rows_cex :
    (interpolate [c7RecA, c7RecB] 3600).map (fun ir => ir.radinfo) =
      .ok (.table [[none, none, none, none], [none, none, none, none]]) ∧
    blendO (1/2) (1/2) (some 50000) (some 60000) = some 55000 ∧
    ([none, none, none, none] : List (Option ℚ)) ≠
      [some 55000, some 55000, some 55000, some 55000] := by
  refine ⟨?_, by norm_num [blendO, mulO, addO], by simp⟩
  have hbp : blendPhase ((c7RecB.timestamp - 3600) / (c7RecB.timestamp - c7RecA.timestamp))
      (1 - (c7RecB.timestamp - 3600) / (c7RecB.timestamp - c7RecA.timestamp))
      c7RecA.vinfo c7RecB.vinfo c7RecA.radinfo c7RecB.radinfo =
      some (.arr c7RecA.vinfo, .table [[none, none, none, none], [none, none, none, none]]) := by
    norm_num [blendPhase, blendLoop, blendStep, blendRowN, blendO, mulO, addO,
      pairOkB, wipeTable, c7RecA, c7RecB, List.range_succ, List.replicate_succ]
  rw [interpolate_between_two c7RecA c7RecB 3600 _ (by norm_num [c7RecA])
    (by norm_num [c7RecB]) hbp]
  rfl

open Classical in
/-- Witness for C7: the amended characterization applied at the concrete
counterexample track and row 0 (whose pair is fine but which is wiped by the
later NaN pair at index 1). -/
theorem radinfo_nan_wipes_prior_rows_witness :
    (c7RecA.timestamp < 3600 ∧ (3600 : ℚ) < c7RecB.timestamp ∧
      c7RecB.vinfo.length = c7RecA.vinfo.length ∧ 1 < c7RecA.vinfo.length ∧
      0 < c7RecA.vinfo.length) ∧
    (blendLoop ((c7RecB.timestamp - 3600) / (c7RecB.timestamp - c7RecA.timestamp))
        (1 - (c7RecB.timestamp - 3600) / (c7RecB.timestamp - c7RecA.timestamp))
        c7RecA.vinfo c7RecB.vinfo c7RecA.radinfo c7RecB.radinfo
        (c7RecA.radinfo.headD []).length c7RecA.vinfo.length).getD 0 [] =
      (if pairOkB c7RecA.vinfo c7RecB.vinfo 0 = true ∧
          (∀ i, 0 < i → i < c7RecA.vinfo.length →
            pairOkB c7RecA.vinfo c7RecB.vinfo i = true)
        then blendRowN ((c7RecB.timestamp - 3600) / (c7RecB.timestamp - c7RecA.timestamp))
          (1 - (c7RecB.timestamp - 3600) / (c7RecB.timestamp - c7RecA.timestamp))
          (c7RecA.radinfo.headD []).length (c7RecA.radinfo.getD 0 [])
          (c7RecB.radinfo.getD 0 [])
        else List.replicate (c7RecA.radinfo.headD []).length none) := by
  refine ⟨⟨by norm_num [c7RecA], by norm_num [c7RecB], by simp [c7RecA, c7RecB],
    by simp [c7RecA], by simp [c7RecA]⟩, ?_⟩
  exact (radinfo_nan_wipes_prior_rows c7RecA c7RecB 3600 0 (by norm_num [c7RecA])
    (by norm_num [c7RecB]) (by simp [c7RecA, c7RecB]) (by simp [c7RecA])
    (by simp [c7RecA])).2

/-! ## rmax selection in calculate_wind / calculate_pressure
(cyclone.py lines 668-712, identical in lines 912-956) -/

/-- The rmax_select argument: a keyword string, a Python int, or a value of
any other type. -/
inductive RmaxSelect where
  | str (s : String)
  | int (k : ℤ)
  | other
deriving DecidableEq, Repr

/-- What the rmax-selection block leaves behind: an exception that
propagates out of calculate_wind (raise Warning aborts the call, it is not
warnings.warn), the local variable rmax left unassigned (the valid-index
integer branch evaluates the indexed value and discards it), or an assigned
value (NaN-able). -/
inductive SelOutcome where
  | raised (msg : String)
  | unassigned
  | assigned (v : Option ℚ)
deriving DecidableEq, Repr

/-- np.mean of a list of rationals. -/
def meanQ (xs : List ℚ) : ℚ := xs.sum / xs.length

/-- np.argmin of the pointwise distances |x - r|: index of the first
minimum. -/
def argminAbs (r : ℚ) : List ℚ → Nat
  | [] => 0
  | [_] => 0
  | x :: y :: xs =>
    let restIdx := argminAbs r (y :: xs)
    if |((y :: xs).getD restIdx 0) - r| < |x - r| then restIdx + 1 else 0

/-- Insertion of one (radius, rmax) pair into a radius-sorted list. -/
def insertSorted (p : ℚ × ℚ) : List (ℚ × ℚ) → List (ℚ × ℚ)
  | [] => [p]
  | q :: qs => if p.1 ≤ q.1 then p :: q :: qs else q :: insertSorted p qs

/-- Radius-sorting of the (radius, rmax) pairs, as interp1d does before
interpolating (assume_sorted is false by default). -/
def sortPairs : List (ℚ × ℚ) → List (ℚ × ℚ)
  | [] => []
  | p :: ps => insertSorted p (sortPairs ps)

/-- Piecewise-linear evaluation over radius-sorted pairs for a query known
to lie strictly above the first node. -/
def linInterpAfter : List (ℚ × ℚ) → ℚ → Option ℚ
  | (x0, y0) :: (x1, y1) :: rest, x =>
    if x ≤ x1 then some (y0 + (y1 - y0) * (x - x0) / (x1 - x0))
    else linInterpAfter ((x1, y1) :: rest) x
  | _, _ => none

/-- The value of the rmax_select = linear strategy (lines 686-697): the
(radius, rmax) samples are padded with infinite end nodes and sorted; inside
the observed radius range this is piecewise-linear interpolation, while a
query falling in either infinite end segment evaluates 0 * inf = NaN
(modelled as none). -/
def linearRmax (r : ℚ) (rads rmaxs : List ℚ) : Option ℚ :=
  match sortPairs (rads.zip rmaxs) with
  | [] => none
  | (x0, y0) :: rest =>
    if r ≤ x0 then none
    else linInterpAfter ((x0, y0) :: rest) r

/-- Embedding of the rmax-selection block (cyclone.py lines 668-712).
frmaxVals are the values of the per-threshold rmax interpolators at the
query bearing; fradVals are the values of the fradinfo interpolators there
(none when the record has no fradinfo key).  Every raise Warning(...) in an
inner branch is caught by the enclosing bare except, which re-raises
Warning with the wrong-keyword message - that exception is what escapes. -/
def rmaxSelection (sel : RmaxSelect) (frmaxVals : List ℚ) (fradVals : Option (List ℚ))
    (r : ℚ) : SelOutcome :=
  match sel with
  | .str s =>
    if s = "mean" then
      if frmaxVals.isEmpty then .assigned none else .assigned (some (meanQ frmaxVals))
    else if s = "nearest" then
      match fradVals with
      | some rads =>
        if rads.isEmpty then
          .raised "Warning: Wrong keyword for rmax method. First frmax is used"
        else
          let nn := argminAbs r rads
          if nn < frmaxVals.length then .assigned (some (frmaxVals.getD nn 0))
          else .raised "Warning: Wrong keyword for rmax method. First frmax is used"
      | none => .raised "Warning: Wrong keyword for rmax method. First frmax is used"
    else if s = "linear" then
      match fradVals with
      | some rads =>
        if rads.length = frmaxVals.length ∧ ¬ rads.isEmpty then
          .assigned (linearRmax r rads frmaxVals)
        else .raised "Warning: Wrong keyword for rmax method. First frmax is used"
      | none => .raised "Warning: Wrong keyword for rmax method. First frmax is used"
    else .raised "Warning: Wrong keyword for rmax method. First frmax is used"
  | .int k =>
    if (0 ≤ k ∧ k < frmaxVals.length) ∨ (k < 0 ∧ -k ≤ frmaxVals.length) then .unassigned
    else .raised "Warning: Wrong rmax index. First frmax is used"
  | .other => .raised "Warning: Wrong rmax selection keyword/index. First frmax is used"

/-- The first use of the local rmax after the selection block (line 723,
rlim_min = np.append(0, rmax_frac)[0:-1] * rmax): a propagated Warning or an
unassigned rmax both abort calculate_wind before any result is produced. -/
def rmaxResolved (sel : RmaxSelect) (frmaxVals : List ℚ) (fradVals : Option (List ℚ))
    (r : ℚ) : Except String (Option ℚ) :=
  match rmaxSelection sel frmaxVals fradVals r with
  | .raised msg => .error msg
  | .unassigned =>
    .error "UnboundLocalError: local variable rmax referenced before assignment"
  | .assigned v => .ok v

/-- C1 (refuting): every failure of rmax selection (unsupported keyword,
out-of-range integer index, missing fradinfo data for nearest/linear, or a
non str/int selector) makes calculate_wind / calculate_pressure raise - the
source executes raise Warning(...), which propagates out of the call, so
the fallback assignment to the first interpolator right before it is dead
code and no wind/pressure result is ever returned. -/
theorem rmax_selection_failure_aborts (frmaxVals : List ℚ) (fradVals : Option (List ℚ))
    (r : ℚ) (s : String) (k : ℤ)
    (hs : s ≠ "mean" ∧ s ≠ "nearest" ∧ s ≠ "linear")
    (hk : ¬ ((0 ≤ k ∧ k < frmaxVals.length) ∨ (k < 0 ∧ -k ≤ frmaxVals.length))) :
    rmaxResolved (.str s) frmaxVals fradVals r =
      .error "Warning: Wrong keyword for rmax method. First frmax is used" ∧
    rmaxResolved (.int k) frmaxVals fradVals r =
      .error "Warning: Wrong rmax index. First frmax is used" ∧
    rmaxResolved (.str "nearest") frmaxVals none r =
      .error "Warning: Wrong keyword for rmax method. First frmax is used" ∧
    rmaxResolved (.str "linear") frmaxVals none r =
      .error "Warning: Wrong keyword for rmax method. First frmax is used" ∧
    rmaxResolved .other frmaxVals fradVals r =
      .error "Warning: Wrong rmax selection keyword/index. First frmax is used" := by
  obtain ⟨h1, h2, h3⟩ := hs
  refine ⟨?_, ?_, ?_, ?_, ?_⟩
  · simp [rmaxResolved, rmaxSelection, h1, h2, h3]
  · simp [rmaxResolved, rmaxSelection, hk]
  · simp [rmaxResolved, rmaxSelection]
  · simp [rmaxResolved, rmaxSelection]
  · simp [rmaxResolved, rmaxSelection]

/-- Witness for C1 at concrete failing inputs: the misspelled keyword maen
and the out-of-range index 5 on a two-interpolator record. -/
theorem rmax_selection_failure_aborts_witness :
    (("maen" : String) ≠ "mean" ∧ ("maen" : String) ≠ "nearest" ∧
      ("maen" : String) ≠ "linear") ∧
    rmaxResolved (.str "maen") [40000, 50000] (some [60000, 80000]) 30000 =
      .error "Warning: Wrong keyword for rmax method. First frmax is used" ∧
    rmaxResolved (.int 5) [40000, 50000] (some [60000, 80000]) 30000 =
      .error "Warning: Wrong rmax index. First frmax is used" := by
  refine ⟨⟨by decide, by decide, by decide⟩, ?_, ?_⟩
  · exact (rmax_selection_failure_aborts [40000, 50000] (some [60000, 80000]) 30000
      "maen" 5 ⟨by decide, by decide, by decide⟩ (by norm_num)).1
  · exact (rmax_selection_failure_aborts [40000, 50000] (some [60000, 80000]) 30000
      "maen" 5 ⟨by decide, by decide, by decide⟩ (by norm_num)).2.1

/-- C3 (refuting): a valid integer index does not select the k-th rmax: the
source evaluates np.array([f(theta) for f in frmax])[rmax_select] and
discards it without assigning rmax, so the first use of rmax on line 723
raises UnboundLocalError and the call aborts; the k-th interpolator value is
never used for dispatch. -/
theorem rmax_integer_index_unbound (frmaxVals : List ℚ) (fradVals : Option (List ℚ))
    (r : ℚ) (k : ℤ) (hk0 : 0 ≤ k) (hklen : k < frmaxVals.length) :
    rmaxSelection (.int k) frmaxVals fradVals r = .unassigned ∧
    rmaxResolved (.int k) frmaxVals fradVals r =
      .error "UnboundLocalError: local variable rmax referenced before assignment" ∧
    (∀ v : Option ℚ, rmaxResolved (.int k) frmaxVals fradVals r ≠ .ok v) := by
  have hcond : (0 ≤ k ∧ k < (frmaxVals.length : ℤ)) ∨
      (k < 0 ∧ -k ≤ (frmaxVals.length : ℤ)) := Or.inl ⟨hk0, hklen⟩
  have hsel : rmaxSelection (.int k) frmaxVals fradVals r = .unassigned := by
    simp [rmaxSelection, hcond]
  refine ⟨hsel, ?_, ?_⟩
  · simp [rmaxResolved, hsel]
  · intro v
    simp [rmaxResolved, hsel]

/-- Witness for C3: index 0 on a record with two rmax interpolators. -/
theorem rmax_integer_index_unbound_witness :
    ((0 : ℤ) ≤ 0 ∧ (0 : ℤ) < ([40000, 50000] : List ℚ).length) ∧
    rmaxResolved (.int 0) [40000, 50000] (some [60000, 80000]) 30000 =
      .error "UnboundLocalError: local variable rmax referenced before assignment" := by
  refine ⟨⟨le_refl 0, by norm_num⟩, ?_⟩
  exact (rmax_integer_index_unbound [40000, 50000] (some [60000, 80000]) 30000 0
    (le_refl 0) (by norm_num)).2.1

/-! ## Record.gen_radial_fields (cyclone.py lines 348-424) -/

/-- The five sampled bearings np.linspace(0, 2*pi, 5); np.pi is the opaque
parameter pi. -/
def thetaSamples (pi : ℚ) : List ℚ := [0, pi / 2, pi, 3 * pi / 2, 2 * pi]

/-- Exact values of np.sin at the five sampled bearings. -/
def sinSamples : List ℚ := [0, 1, 0, -1, 0]

/-- Exact values of np.cos at the five sampled bearings. -/
def cosSamples : List ℚ := [1, 0, -1, 0, 1]

/-- Embedding of cyclone.py lines 380-386: the translation velocity rotated
anti-clockwise by the fixed empirical angle (ca, sa are its cosine and
sine); if either component is NaN the code uses (0, 0) instead. -/
def rotatedStorm (ca sa : ℚ) (ustorm vstorm : Option ℚ) : ℚ × ℚ :=
  match ustorm, vstorm with
  | some us, some vs => (us * ca - vs * sa, us * sa + vs * ca)
  | _, _ => (0, 0)

/-- Embedding of lines 398-399 (and 411-412 for each vinfo threshold): the
directional components of a reported speed w at sampled bearing index i,
minus the fraction of the rotated translation (ut, vt). -/
def sampleComp (fraction ut vt w : ℚ) (i : Nat) : ℚ × ℚ :=
  (w * (-(sinSamples.getD i 0)) - fraction * ut,
   w * (cosSamples.getD i 0) - fraction * vt)

/-- Embedding of line 400 (and 413): the directional magnitude
np.sqrt(x^2 + y^2) / swrf; np.sqrt is embedded as Rat.sqrt, which agrees
with the real square root on the perfect squares produced at the sampled
bearings. -/
def sampleAmp (fraction swrf ut vt w : ℚ) (i : Nat) : ℚ :=
  Rat.sqrt ((sampleComp fraction ut vt w i).1 ^ 2 +
    (sampleComp fraction ut vt w i).2 ^ 2) / swrf

/-- Piecewise-linear interpolation over (node, value) pairs in the style of
interp1d: none outside the sampled range (bounds_error), otherwise the
linear blend on the bracketing segment. -/
def interpPairs : List (ℚ × ℚ) → ℚ → Option ℚ
  | (x0, y0) :: (x1, y1) :: rest, x =>
    if x < x0 then none
    else if x ≤ x1 then some (y0 + (y1 - y0) * (x - x0) / (x1 - x0))
    else interpPairs ((x1, y1) :: rest) x
  | [(x0, y0)], x => if x = x0 then some y0 else none
  | [], _ => none

/-- The fvmax interpolator built on line 401: interp1d over the five
sampled bearings of the magnitudes of vmax. -/
def fvmax_fun (pi fraction swrf ca sa : ℚ) (ustorm vstorm : Option ℚ) (vmax θ : ℚ) :
    Option ℚ :=
  let uv := rotatedStorm ca sa ustorm vstorm
  interpPairs ((thetaSamples pi).zip
    ((List.range 5).map (fun i => sampleAmp fraction swrf uv.1 uv.2 vmax i))) θ

lemma ratSqrt_mul_self (w : ℚ) (hw : 0 ≤ w) : Rat.sqrt (w * w) = w := by
  rw [Rat.sqrt_eq, abs_of_nonneg hw]

/-- C8: when either translation component is NaN, gen_radial_fields applies
no translation correction: the rotated translation entering the component
formulas is exactly (0, 0), each of the five sampled directional magnitudes
of any reported speed w >= 0 is w / swrf (only the swrf scaling), and the
derived fvmax interpolator is the constant vmax / swrf at every bearing of
its domain [0, 2*pi]. -/
theorem gen_radial_fields_nan_translation (pi fraction swrf ca sa : ℚ)
    (ustorm vstorm : Option ℚ) (vmax θ : ℚ)
    (hnan : ustorm = none ∨ vstorm = none)
    (hpi : 0 < pi) (hvmax : 0 ≤ vmax) (hθ1 : 0 ≤ θ) (hθ2 : θ ≤ 2 * pi) :
    rotatedStorm ca sa ustorm vstorm = (0, 0) ∧
    (∀ w : ℚ, 0 ≤ w → ∀ i, i < 5 → sampleAmp fraction swrf 0 0 w i = w / swrf) ∧
    fvmax_fun pi fraction swrf ca sa ustorm vstorm vmax θ = some (vmax / swrf) := by
  have h0 : rotatedStorm ca sa ustorm vstorm = (0, 0) := by
    rcases hnan with h | h
    · subst h; cases vstorm <;> simp [rotatedStorm]
    · subst h; cases ustorm <;> simp [rotatedStorm]
  have hcomp : ∀ w : ℚ, ∀ i, i < 5 →
      (sampleComp fraction 0 0 w i).1 ^ 2 + (sampleComp fraction 0 0 w i).2 ^ 2 =
        w * w := by
    intro w i hi
    interval_cases i <;>
      (simp only [sampleComp, sinSamples, cosSamples, List.getD_cons_zero,
        List.getD_cons_succ]; ring)
  have hamp : ∀ w : ℚ, 0 ≤ w → ∀ i, i < 5 →
      sampleAmp fraction swrf 0 0 w i = w / swrf := by
    intro w hw i hi
    simp only [sampleAmp]
    rw [hcomp w i hi, ratSqrt_mul_self w hw]
  refine ⟨h0, hamp, ?_⟩
  have e0 := hamp vmax hvmax 0 (by norm_num)
  have e1 := hamp vmax hvmax 1 (by norm_num)
  have e2 := hamp vmax hvmax 2 (by norm_num)
  have e3 := hamp vmax hvmax 3 (by norm_num)
  have e4 := hamp vmax hvmax 4 (by norm_num)
  simp only [fvmax_fun, h0, thetaSamples, List.zip, List.zipWith]
  simp only [interpPairs]
  split_ifs <;> first
    | (exfalso; linarith)
    | simp [e0, e1, e2, e3, e4]

/-- Witness for C8 at a concrete input: NaN ustorm, vmax 40, swrf 9/10,
query bearing 2, with a concrete positive stand-in for pi. -/
theorem gen_radial_fields_nan_translation_witness :
    (((none : Option ℚ) = none ∨ (some (5 : ℚ) : Option ℚ) = none) ∧
      (0 : ℚ) < 3 ∧ (0 : ℚ) ≤ 40 ∧ (0 : ℚ) ≤ 2 ∧ (2 : ℚ) ≤ 2 * 3) ∧
    fvmax_fun 3 (14/25) (9/10) (1/2) (1/3) none (some 5) 40 2 =
      some (40 / (9/10)) := by
  refine ⟨⟨Or.inl rfl, by norm_num, by norm_num, by norm_num, by norm_num⟩, ?_⟩
  exact (gen_radial_fields_nan_translation 3 (14/25) (9/10) (1/2) (1/3) none
    (some 5) 40 2 (Or.inl rfl) (by norm_num) (by norm_num) (by norm_num)
    (by norm_num)).2.2
